import Mathlib

/-!
Shallow embedding of the provisioning-orchestration engine of the
discord-gameserver-manager repository: the port allocator
(src/apps/api/src/services/port-allocator.ts), the job repository
(db/repositories/jobs.ts), the job scheduler
(src/apps/api/src/services/job-runner.ts), the action-execution pipeline
(src/apps/api/src/services/job-executor.ts, in its revision that includes the
delete and SFTP handlers), and the admission routes (routes/jobs.ts,
routes/servers.ts).  Databases are modelled as explicit lists, external
effects as explicit traces, and JavaScript exceptions as Except values.
-/

/-- Status of a game server instance (shared/src/types/server-instance.ts). -/
inductive ServerStatus
  | pendingPorts
  | pending
  | provisioning
  | running
  | stopped
  | error
  | deleting
deriving DecidableEq, Repr

/-- Status of a provisioning job (shared/src/types/job.ts). -/
inductive JobStatus
  | queued
  | running
  | completed
  | failed
deriving DecidableEq, Repr

/-- The string value of a ServerStatus enum member, as stored in the database. -/
def serverStatusText : ServerStatus → String
  | .pendingPorts => "pending_ports"
  | .pending => "pending"
  | .provisioning => "provisioning"
  | .running => "running"
  | .stopped => "stopped"
  | .error => "error"
  | .deleting => "deleting"

/-! ## Port allocator (services/port-allocator.ts) -/

/-- The inner loop of findConsecutiveBlock: all of the blockSize ports
starting at start are absent from the allocated set. -/
def blockIsFree (allocated : List Nat) (start blockSize : Nat) : Bool :=
  (List.range blockSize).all fun i => !(allocated.contains (start + i))

/-- findConsecutiveBlock: scan candidate starts from poolStart up to
poolEnd - blockSize + 1 inclusive and return the first start whose whole
block is free.  The candidate count poolEnd + 2 - blockSize - poolStart is
the Nat-truncated form of (poolEnd - blockSize + 1) - poolStart + 1, matching
the JavaScript loop that runs zero times when the upper bound is below
poolStart. -/
def findConsecutiveBlock (allocated : List Nat) (poolStart poolEnd blockSize : Nat) :
    Option Nat :=
  (List.range' poolStart (poolEnd + 2 - blockSize - poolStart)).find? fun s =>
    blockIsFree allocated s blockSize

/-- findAvailableGamePorts: gamePorts is the ordered list of the game's named
port definitions (name, declared base port); allocated is the list of ports
already allocated in the game pool; poolStart, poolEnd are the pool bounds.
Mirrors the source: offsets of the base ports from the minimum base port are
preserved, the block size is the maximum offset plus one, and a thrown
PortAllocationError is an Except.error. -/
def findAvailableGamePorts (allocated : List Nat) (poolStart poolEnd : Nat)
    (gamePorts : List (String × Nat)) : Except String (List (String × Nat)) :=
  match gamePorts with
  | [] => .ok []
  | (n0, p0) :: rest =>
    let basePorts := p0 :: rest.map (fun d => d.2)
    let minBasePort := basePorts.foldl Nat.min p0
    let offsets := basePorts.map (fun p => p - minBasePort)
    let blockSize := offsets.foldl Nat.max 0 + 1
    match findConsecutiveBlock allocated poolStart poolEnd blockSize with
    | none => .error "No consecutive block of ports available in game pool"
    | some blockStart =>
      .ok (((n0, p0) :: rest).map (fun d => (d.1, blockStart + (d.2 - minBasePort))))

/-- A row of the port_allocations table (shared types, db/repositories of
port allocations). -/
structure PortAlloc where
  serverId : String
  pool : String
  port : Nat
  purpose : String
deriving DecidableEq, Repr

/-- deletePortAllocationsByServer: DELETE FROM port_allocations WHERE
server_id = ?.  The pool column is not consulted. -/
def deletePortAllocationsByServer (table : List PortAlloc) (serverId : String) :
    List PortAlloc :=
  table.filter fun a => a.serverId != serverId

/-- releasePorts(serverId) simply delegates to deletePortAllocationsByServer. -/
def releasePorts (table : List PortAlloc) (serverId : String) : List PortAlloc :=
  deletePortAllocationsByServer table serverId

/-! ## Job repository (db/repositories/jobs.ts) -/

/-- startJob: UPDATE jobs SET status = running WHERE id = ? AND
status = queued.  Returns none when the guard matched no row (the runner
treats this as "already started by another runner"). -/
def startJobStatus : JobStatus → Option JobStatus
  | .queued => some .running
  | _ => none

/-- JavaScript truthiness of the optional error string in
completeJob: undefined and the empty string are falsy. -/
def errTruthy : Option String → Bool
  | none => false
  | some s => s != ""

/-- completeJob: status is failed when the error argument is truthy,
completed otherwise; guarded by WHERE status = running. -/
def completeJobStatus (err : Option String) : JobStatus → Option JobStatus
  | .running => some (if errTruthy err then .failed else .completed)
  | _ => none

/-- The operations that touch a job row after creation: the scheduler claim,
the terminal write, and log appends while running. -/
inductive JobOp
  | startOp
  | completeOp (err : Option String)
  | appendLogOp (line : String)
deriving DecidableEq, Repr

/-- Effect of one repository operation on a job row's status: a guarded
update whose guard fails leaves the row unchanged (changes = 0). -/
def applyJobOp (s : JobStatus) : JobOp → JobStatus
  | .startOp => (startJobStatus s).getD s
  | .completeOp e => (completeJobStatus e s).getD s
  | .appendLogOp _ => s

/-- Run a sequence of repository operations on a job row's status. -/
def runJobOps (s : JobStatus) (ops : List JobOp) : JobStatus :=
  ops.foldl applyJobOp s

/-! ## Scheduler (services/job-runner.ts) -/

/-- The scheduler state visible to the concurrency claim: the configured
bound, the queued job ids in queue order, and the in-flight job ids
(the activeJobs set).  Jobs claimed by startJob leave the queued list. -/
structure SchedState where
  maxConcurrentJobs : Nat
  queuedJobs : List String
  activeJobs : List String
deriving DecidableEq, Repr

/-- One tick of pollAndProcessJobs: availableSlots =
maxConcurrentJobs - activeJobs.size; return unchanged when no capacity,
otherwise claim at most availableSlots queued jobs (getQueuedJobs with that
limit) and launch each, which adds it to activeJobs.  The JavaScript event
loop runs this claiming section without interleaving, so it is one step. -/
def pollAndProcessJobs (s : SchedState) : SchedState :=
  let availableSlots := s.maxConcurrentJobs - s.activeJobs.length
  if availableSlots = 0 then s
  else
    { s with
      queuedJobs := s.queuedJobs.drop availableSlots
      activeJobs := s.activeJobs ++ s.queuedJobs.take availableSlots }

/-- A job finishing: processJob's finally block removes it from activeJobs. -/
def finishJob (s : SchedState) (jobId : String) : SchedState :=
  { s with activeJobs := s.activeJobs.erase jobId }

/-- Interleavable scheduler events. -/
inductive SchedOp
  | pollOp
  | finishOp (jobId : String)
deriving DecidableEq, Repr

/-- Apply one scheduler event. -/
def applySchedOp (s : SchedState) : SchedOp → SchedState
  | .pollOp => pollAndProcessJobs s
  | .finishOp j => finishJob s j

/-- Run a sequence of scheduler events. -/
def runSched (s : SchedState) (ops : List SchedOp) : SchedState :=
  ops.foldl applySchedOp s

/-! ## Action-execution pipeline (services/job-executor.ts, the revision with
the delete and SFTP handlers) -/

/-- The result shape every handler returns. -/
structure ExecutionResult where
  success : Bool
  error : Option String
  logs : List String
deriving DecidableEq, Repr

/-- updateServerStatusAfterJob: delete is skipped (the record is already
soft-deleted); any failure maps to Error; successful provision/start/stop/
deprovision map to their table entries; every other successful action
performs no status write (the function returns before updateServer). -/
def updateServerStatusAfterJob (action : String) (success : Bool) :
    Option ServerStatus :=
  if action = "delete" then none
  else if success = false then some .error
  else match action with
    | "provision" => some .stopped
    | "start" => some .running
    | "stop" => some .stopped
    | "deprovision" => some .pending
    | _ => none

/-- executeJob.  server is the looked-up server's name (none when the row is
missing), game the looked-up game id, handler the registered handler's
behaviour: the log lines it emits through ctx.log followed by either the
result it returns (.ok) or the exception it throws (.error).  Timestamps on
log lines are elided.  The try/catch converts a thrown exception into a
failed result carrying the collected log lines. -/
def executeJob (server : Option String) (game : Option String)
    (handler : Option (List String × Except String ExecutionResult))
    (action gameId : String) : ExecutionResult :=
  match server with
  | none => ⟨false, some "Server not found", []⟩
  | some serverName =>
    match game with
    | none => ⟨false, some ("Game definition not found: " ++ gameId), []⟩
    | some _ =>
      match handler with
      | none => ⟨false, some ("Unknown action: " ++ action), []⟩
      | some (handlerLogs, outcome) =>
        let startLine := "Starting " ++ action ++ " for server " ++ serverName
        match outcome with
        | .ok r =>
          let doneLine :=
            "Completed " ++ action ++ ": " ++ (if r.success then "success" else "failed")
          { r with logs := ((startLine :: handlerLogs) ++ [doneLine]) ++ r.logs }
        | .error e =>
          ⟨false, some e, (startLine :: handlerLogs) ++ ["Error during " ++ action ++ ": " ++ e]⟩

/-! ## Provision handler (handleProvision in the action pipeline) -/

/-- External calls handleProvision can issue, in order. -/
inductive ProvisionEffect
  | callProvisionVm
  | callDestroyVm (vmId : Nat)
  | writeVmInfo
  | createForwardRules
  | runProvisionPlaybook
deriving DecidableEq, Repr

/-- JavaScript truthiness of an optional string field such as
server.internalAddress: undefined and the empty string are falsy. -/
def strTruthy : Option String → Bool
  | none => false
  | some s => s != ""

/-- The tail of handleProvision shared by every path that reaches it:
best-effort forwarding-rule creation (its failure is logged, never fatal)
followed by the game's provision playbook, whose result is returned. -/
def provisionTail (unifiConfigured : Bool) (forwardOutcome : Except String Unit)
    (playbookResult : ExecutionResult) : ExecutionResult × List ProvisionEffect :=
  let fwdEffects :=
    if unifiConfigured then [ProvisionEffect.createForwardRules] else []
  match forwardOutcome with
  | _ => (playbookResult, fwdEffects ++ [ProvisionEffect.runProvisionPlaybook])

/-- handleProvision.  provisionOutcome is provisionVm's behaviour: the
(vmId, ipAddress) pair it returns or the exception it throws.  On a thrown
provisioning error the handler returns a failed result naming the failure
and performs no further external call; in particular it never issues a
destroy call. -/
def handleProvision (internalAddress : Option String)
    (proxmoxConfigured unifiConfigured : Bool)
    (provisionOutcome : Except String (Nat × String))
    (forwardOutcome : Except String Unit)
    (playbookResult : ExecutionResult) : ExecutionResult × List ProvisionEffect :=
  if strTruthy internalAddress = false ∧ proxmoxConfigured = true then
    match provisionOutcome with
    | .error e =>
      (⟨false, some ("VM provisioning failed: " ++ e), []⟩, [.callProvisionVm])
    | .ok _ =>
      let tail := provisionTail unifiConfigured forwardOutcome playbookResult
      (tail.1, [ProvisionEffect.callProvisionVm, ProvisionEffect.writeVmInfo] ++ tail.2)
  else if strTruthy internalAddress = false then
    (⟨false, some "Server has no internal address and Proxmox is not configured", []⟩, [])
  else
    provisionTail unifiConfigured forwardOutcome playbookResult

/-! ## Scheduler terminal persistence (processJob in services/job-runner.ts) -/

/-- The terminal status processJob persists for a claimed (running) job:
completeJob(job.id, result.success ? undefined : result.error). -/
def processJobTerminal (result : ExecutionResult) : Option JobStatus :=
  completeJobStatus (if result.success then none else result.error) .running

/-! ## Job-creation admission (routes/jobs.ts) -/

/-- validateJobAction: the per-action guard on the server's current status.
Returns the error message for a rejected action, none when allowed. -/
def validateJobAction (currentStatus : ServerStatus) (action : String) :
    Option String :=
  match action with
  | "provision" =>
    if currentStatus ≠ .pending then
      some ("Cannot provision server in " ++ serverStatusText currentStatus ++
        " status. Must be pending.")
    else none
  | "start" =>
    if currentStatus ≠ .stopped ∧ currentStatus ≠ .error then
      some ("Cannot start server in " ++ serverStatusText currentStatus ++
        " status. Must be stopped.")
    else none
  | "stop" =>
    if currentStatus ≠ .running then
      some ("Cannot stop server in " ++ serverStatusText currentStatus ++
        " status. Must be running.")
    else none
  | "backup" =>
    if currentStatus ≠ .running ∧ currentStatus ≠ .stopped then
      some ("Cannot backup server in " ++ serverStatusText currentStatus ++
        " status. Must be running or stopped.")
    else none
  | "update" =>
    if currentStatus ≠ .stopped then
      some ("Cannot update server in " ++ serverStatusText currentStatus ++
        " status. Must be stopped.")
    else none
  | "deprovision" =>
    if currentStatus = .running ∨ currentStatus = .provisioning then
      some ("Cannot deprovision server in " ++ serverStatusText currentStatus ++
        " status. Stop it first.")
    else none
  | _ => none

/-- getStatusForAction: the status write performed right after job creation. -/
def getStatusForAction (action : String) : Option ServerStatus :=
  match action with
  | "provision" => some .provisioning
  | "deprovision" => some .pending
  | _ => none

/-- Whether the server already has a job with status queued or running. -/
def hasActiveJob (jobs : List JobStatus) : Bool :=
  jobs.any fun j => j == .queued || j == .running

/-- Outcome of POST /servers/:serverId/jobs, restricted to what the claims
observe: the HTTP status, whether a job row was inserted, and the status
write (if any) performed on the server. -/
structure AdmissionResult where
  httpStatus : Nat
  jobCreated : Bool
  statusWrite : Option ServerStatus
deriving DecidableEq, Repr

/-- The admission decision of the job-creation route: validate the action
against the current status, then reject if an active job exists, then insert
the job and apply getStatusForAction. -/
def createJobAdmission (currentStatus : ServerStatus) (action : String)
    (jobs : List JobStatus) : AdmissionResult :=
  match validateJobAction currentStatus action with
  | some _ => ⟨409, false, none⟩
  | none =>
    if hasActiveJob jobs then ⟨409, false, none⟩
    else ⟨201, true, getStatusForAction action⟩

/-! ## Server-creation admission (routes/servers.ts) -/

/-- Outcome of POST /servers restricted to what the claims observe. -/
structure ServerAdmissionResult where
  serverStatus : ServerStatus
  allocationRows : List (String × Nat)
  provisionJobQueued : Bool
deriving DecidableEq, Repr

/-- The port-allocation-dependent part of server creation: a thrown
PortAllocationError yields a PendingPorts server with no allocation rows and
no auto-queued job; success yields a Pending server, the allocation rows
(when nonempty), and an auto-queued provision job. -/
def createServerAdmission (allocated : List Nat) (poolStart poolEnd : Nat)
    (gamePorts : List (String × Nat)) : ServerAdmissionResult :=
  match findAvailableGamePorts allocated poolStart poolEnd gamePorts with
  | .error _ => ⟨.pendingPorts, [], false⟩
  | .ok ports => ⟨.pending, if ports.isEmpty then [] else ports, true⟩

/-! ## Helper lemmas -/

theorem foldl_min_le_init (l : List Nat) (a : Nat) : l.foldl Nat.min a ≤ a := by
  induction l generalizing a with
  | nil => exact Nat.le_refl a
  | cons b t ih =>
    exact Nat.le_trans (ih (Nat.min a b)) (Nat.min_le_left a b)

theorem foldl_min_le_mem (l : List Nat) (a x : Nat) (hx : x ∈ l) :
    l.foldl Nat.min a ≤ x := by
  induction l generalizing a with
  | nil => cases hx
  | cons b t ih =>
    rcases List.mem_cons.mp hx with rfl | hx'
    · exact Nat.le_trans (foldl_min_le_init t (Nat.min a x)) (Nat.min_le_right a x)
    · exact ih (Nat.min a b) hx'

theorem foldl_max_ge_mem (l : List Nat) (a x : Nat) (hx : x ∈ l) :
    x ≤ l.foldl Nat.max a := by
  have hinit : ∀ (l : List Nat) (a : Nat), a ≤ l.foldl Nat.max a := by
    intro l
    induction l with
    | nil => intro a; exact Nat.le_refl a
    | cons b t ih =>
      intro a
      exact Nat.le_trans (Nat.le_max_left a b) (ih (Nat.max a b))
  induction l generalizing a with
  | nil => cases hx
  | cons b t ih =>
    rcases List.mem_cons.mp hx with rfl | hx'
    · exact Nat.le_trans (Nat.le_max_right a x) (hinit t (Nat.max a x))
    · exact ih (Nat.max a b) hx'

theorem findConsecutiveBlock_sound (allocated : List Nat) (lo hi k s : Nat)
    (h : findConsecutiveBlock allocated lo hi k = some s) :
    lo ≤ s ∧ s + k ≤ hi + 1 ∧ ∀ i, i < k → (s + i) ∉ allocated := by
  unfold findConsecutiveBlock at h
  have hmem := List.mem_of_find?_eq_some h
  have hsat := List.find?_some h
  rw [List.mem_range'_1] at hmem
  obtain ⟨h1, h2⟩ := hmem
  refine ⟨h1, by omega, ?_⟩
  intro i hik
  unfold blockIsFree at hsat
  rw [List.all_eq_true] at hsat
  have := hsat i (List.mem_range.mpr hik)
  simpa using this

/-! ## Claim theorems -/

/-- C6: releasePorts removes every allocation owned by the server across all
pools, keeps every allocation of other servers, is idempotent, and is a
no-op when the server owns no allocations. -/
theorem c6_release_ports_idempotent :
    ∀ (table : List PortAlloc) (sid : String),
      (∀ a ∈ releasePorts table sid, a.serverId ≠ sid)
    ∧ (∀ a ∈ table, a.serverId ≠ sid → a ∈ releasePorts table sid)
    ∧ releasePorts (releasePorts table sid) sid = releasePorts table sid
    ∧ ((∀ a ∈ table, a.serverId ≠ sid) → releasePorts table sid = table) := by
  intro table sid
  refine ⟨?_, ?_, ?_, ?_⟩
  · intro a ha
    have := (List.mem_filter.mp ha).2
    simpa using this
  · intro a ha hne
    exact List.mem_filter.mpr ⟨ha, by simpa using hne⟩
  · apply List.filter_eq_self.mpr
    intro a ha
    exact (List.mem_filter.mp ha).2
  · intro h
    apply List.filter_eq_self.mpr
    intro a ha
    simpa using h a ha

/-- Witness for C6 at a concrete table: the other server's sftp allocation
survives the release of server s1, and releasing on an empty table is a
no-op. -/
theorem c6_release_ports_witness :
    (⟨"s2", "sftp", 2201, "sftp"⟩ : PortAlloc) ∈
      releasePorts [⟨"s1", "game", 27000, "query"⟩, ⟨"s2", "sftp", 2201, "sftp"⟩] "s1"
    ∧ releasePorts ([] : List PortAlloc) "s1" = [] :=
  ⟨(c6_release_ports_idempotent
      [⟨"s1", "game", 27000, "query"⟩, ⟨"s2", "sftp", 2201, "sftp"⟩] "s1").2.1
      ⟨"s2", "sftp", 2201, "sftp"⟩ (by decide) (by decide),
   (c6_release_ports_idempotent ([] : List PortAlloc) "s1").2.2.2 (by decide)⟩

/-- C2: the scheduler's post-job status policy.  On failure the server is set
to Error for every action except delete, for which no status write happens;
on success provision maps to Stopped, start to Running, stop to Stopped,
deprovision to Pending; every other action leaves the status untouched. -/
theorem c2_post_job_status_policy :
    (∀ action, action ≠ "delete" →
      updateServerStatusAfterJob action false = some .error)
    ∧ updateServerStatusAfterJob "delete" false = none
    ∧ updateServerStatusAfterJob "delete" true = none
    ∧ updateServerStatusAfterJob "provision" true = some .stopped
    ∧ updateServerStatusAfterJob "start" true = some .running
    ∧ updateServerStatusAfterJob "stop" true = some .stopped
    ∧ updateServerStatusAfterJob "deprovision" true = some .pending
    ∧ (∀ action, action ∈ ["backup", "update", "install-mods", "setup-sftp",
        "disable-sftp", "reset-sftp-password"] →
        updateServerStatusAfterJob action true = none) := by
  refine ⟨?_, by decide, by decide, by decide, by decide, by decide, by decide, ?_⟩
  · intro action h
    simp [updateServerStatusAfterJob, h]
  · intro action h
    fin_cases h <;> decide

/-- Witness for C2: a failing stop job drives the server to Error. -/
theorem c2_post_job_status_policy_witness :
    updateServerStatusAfterJob "stop" false = some .error :=
  c2_post_job_status_policy.1 "stop" (by decide)

/-- C8: the pipeline boundary converts a thrown handler exception into a
failed result carrying the exception message and the collected log lines,
and passes a returned result through with the log lines prepended; in both
cases executeJob is total, so no exception escapes job execution. -/
theorem c8_no_exception_escapes :
    (∀ serverName gameId handlerLogs action e,
      executeJob (some serverName) (some gameId)
          (some (handlerLogs, Except.error e)) action gameId
        = ⟨false, some e,
            ("Starting " ++ action ++ " for server " ++ serverName) :: handlerLogs ++
              ["Error during " ++ action ++ ": " ++ e]⟩)
    ∧ (∀ serverName gameId handlerLogs action r,
      executeJob (some serverName) (some gameId)
          (some (handlerLogs, Except.ok r)) action gameId
        = { r with logs :=
              (("Starting " ++ action ++ " for server " ++ serverName) ::
                handlerLogs ++ ["Completed " ++ action ++ ": " ++
                  (if r.success then "success" else "failed")]) ++ r.logs }) :=
  ⟨fun _ _ _ _ _ => rfl, fun _ _ _ _ _ => rfl⟩

/-- C10 counterexample: the claimed iff "terminal status is Failed exactly
when the handler result carried an error string" fails on the code.  A
result with success true and an error string is persisted Completed because
processJob passes undefined to completeJob whenever success is true, and a
result with success false and an empty error string is also persisted
Completed because the empty string is falsy in completeJob. -/
theorem c10_success_flag_decides :
    processJobTerminal ⟨true, some "boom", []⟩ = some .completed
    ∧ (⟨true, some "boom", []⟩ : ExecutionResult).error ≠ none
    ∧ processJobTerminal ⟨false, some "", []⟩ = some .completed := by
  refine ⟨by decide, by decide, by decide⟩

/-- C10 (amended): the persisted terminal status of a processed job is
Failed exactly when the handler result has success false and a truthy
(nonempty) error string; with success false and no error string the job is
persisted Completed, while the post-job policy still derives the server
status from the success flag alone, setting Error for any failing non-delete
action. -/
theorem c10_terminal_status_policy :
    (∀ r : ExecutionResult,
      processJobTerminal r = some .failed ↔
        (r.success = false ∧ errTruthy r.error = true))
    ∧ (∀ r : ExecutionResult, r.success = false → r.error = none →
        processJobTerminal r = some .completed)
    ∧ (∀ action, action ≠ "delete" →
        updateServerStatusAfterJob action false = some .error) := by
  refine ⟨?_, ?_, ?_⟩
  · rintro ⟨su, er, lg⟩
    cases su
    · cases er with
      | none => simp [processJobTerminal, completeJobStatus, errTruthy]
      | some s =>
        by_cases hs : s = "" <;>
          simp [processJobTerminal, completeJobStatus, errTruthy, hs]
    · simp [processJobTerminal, completeJobStatus, errTruthy]
  · rintro ⟨su, er, lg⟩ hsu her
    subst hsu
    simp at her
    subst her
    rfl
  · intro action h
    simp [updateServerStatusAfterJob, h]

/-- Witness for C10: a success-false result with no error string is
persisted Completed while a failing start still sets the server to Error. -/
theorem c10_terminal_status_policy_witness :
    processJobTerminal ⟨false, none, []⟩ = some .completed
    ∧ updateServerStatusAfterJob "backup" false = some .error :=
  ⟨c10_terminal_status_policy.2.1 ⟨false, none, []⟩ rfl rfl,
   c10_terminal_status_policy.2.2 "backup" (by decide)⟩

theorem runJobOps_append (s : JobStatus) (ops : List JobOp) (op : JobOp) :
    runJobOps s (ops ++ [op]) = applyJobOp (runJobOps s ops) op := by
  simp [runJobOps, List.foldl_append]

/-- C3: a job's status history follows Queued, then Running, then Completed
or Failed.  The claim transition succeeds only from Queued, the completion
transition only from Running, terminal statuses absorb every later
operation, Queued is never re-entered, and any run of repository operations
that ends terminal passes through Running. -/
theorem c3_job_status_lifecycle :
    (∀ s, (startJobStatus s).isSome ↔ s = .queued)
    ∧ (∀ e s, (completeJobStatus e s).isSome ↔ s = .running)
    ∧ (∀ op, applyJobOp .completed op = .completed ∧ applyJobOp .failed op = .failed)
    ∧ (∀ s op, applyJobOp s op = .queued → s = .queued)
    ∧ (∀ ops, (runJobOps .queued ops = .completed ∨ runJobOps .queued ops = .failed) →
        ∃ pre post, ops = pre ++ post ∧ runJobOps .queued pre = .running) := by
  refine ⟨?_, ?_, ?_, ?_, ?_⟩
  · intro s; cases s <;> simp [startJobStatus]
  · intro e s; cases s <;> simp [completeJobStatus]
  · intro op
    cases op <;> simp [applyJobOp, startJobStatus, completeJobStatus]
  · intro s op h
    cases s <;> cases op <;>
      simp_all [applyJobOp, startJobStatus, completeJobStatus]
    split at h <;> simp_all
  · intro ops h
    induction ops using List.reverseRecOn with
    | nil => simp [runJobOps] at h
    | append_singleton ops op ih =>
      rw [runJobOps_append] at h
      cases hs : runJobOps JobStatus.queued ops with
      | queued =>
        rw [hs] at h
        cases op <;> simp_all [applyJobOp, startJobStatus, completeJobStatus]
      | running =>
        rw [hs] at h
        cases op with
        | startOp => simp_all [applyJobOp, startJobStatus]
        | completeOp e => exact ⟨ops, [JobOp.completeOp e], rfl, hs⟩
        | appendLogOp l => simp_all [applyJobOp]
      | completed =>
        obtain ⟨pre, post, hsplit, hrun⟩ := ih (Or.inl hs)
        exact ⟨pre, post ++ [op], by rw [hsplit, List.append_assoc], hrun⟩
      | failed =>
        obtain ⟨pre, post, hsplit, hrun⟩ := ih (Or.inr hs)
        exact ⟨pre, post ++ [op], by rw [hsplit, List.append_assoc], hrun⟩

/-- Witness for C3: the two-operation run claim-then-fail reaches Failed and
passes through Running. -/
theorem c3_job_status_lifecycle_witness :
    ∃ pre post, [JobOp.startOp, JobOp.completeOp (some "x")] = pre ++ post ∧
      runJobOps .queued pre = .running :=
  c3_job_status_lifecycle.2.2.2.2 [JobOp.startOp, JobOp.completeOp (some "x")]
    (Or.inr (by decide))

/-- C4: job-creation admission rejects with HTTP 409, creates no job row and
writes no server status whenever the action is invalid for the current
status or the server already has a queued or running job; the validation
table allows start only from Stopped or Error, provision only from Pending,
stop only from Running, backup only from Running or Stopped, update only
from Stopped, and deprovision from anything but Running or Provisioning; in
particular a start request against a provisioning server is rejected. -/
theorem c4_job_admission_guards :
    (∀ st action jobs,
      ((validateJobAction st action).isSome ∨ hasActiveJob jobs = true) →
      createJobAdmission st action jobs = ⟨409, false, none⟩)
    ∧ (∀ st, validateJobAction st "provision" = none ↔ st = .pending)
    ∧ (∀ st, validateJobAction st "start" = none ↔ (st = .stopped ∨ st = .error))
    ∧ (∀ st, validateJobAction st "stop" = none ↔ st = .running)
    ∧ (∀ st, validateJobAction st "backup" = none ↔ (st = .running ∨ st = .stopped))
    ∧ (∀ st, validateJobAction st "update" = none ↔ st = .stopped)
    ∧ (∀ st, validateJobAction st "deprovision" = none ↔
        (st ≠ .running ∧ st ≠ .provisioning))
    ∧ createJobAdmission .provisioning "start" [] = ⟨409, false, none⟩ := by
  refine ⟨?_, ?_, ?_, ?_, ?_, ?_, ?_, by decide⟩
  · intro st action jobs h
    unfold createJobAdmission
    cases hv : validateJobAction st action with
    | some m => rfl
    | none =>
      rcases h with h | h
      · rw [hv] at h; simp at h
      · rw [h]
        rfl
  all_goals intro st; cases st <;> decide

/-- Witness for C4: Scenario C, a start request against a provisioning
server, is rejected with no job row and no status write. -/
theorem c4_job_admission_guards_witness :
    createJobAdmission .provisioning "start" [] = ⟨409, false, none⟩ :=
  c4_job_admission_guards.1 .provisioning "start" [] (Or.inl (by decide))

theorem applySchedOp_max (s : SchedState) (op : SchedOp) :
    (applySchedOp s op).maxConcurrentJobs = s.maxConcurrentJobs := by
  cases op with
  | pollOp =>
    unfold applySchedOp pollAndProcessJobs
    dsimp only
    split <;> rfl
  | finishOp j => rfl

theorem applySchedOp_bound (s : SchedState) (op : SchedOp)
    (h : s.activeJobs.length ≤ s.maxConcurrentJobs) :
    (applySchedOp s op).activeJobs.length ≤ s.maxConcurrentJobs := by
  cases op with
  | pollOp =>
    unfold applySchedOp pollAndProcessJobs
    dsimp only
    split
    · exact h
    · simp only [List.length_append, List.length_take]
      omega
  | finishOp j =>
    unfold applySchedOp finishJob
    dsimp only
    exact Nat.le_trans (List.Sublist.length_le (List.erase_sublist _ _)) h

theorem runSched_bound (ops : List SchedOp) (s : SchedState)
    (h : s.activeJobs.length ≤ s.maxConcurrentJobs) :
    (runSched s ops).activeJobs.length ≤ s.maxConcurrentJobs := by
  induction ops generalizing s with
  | nil => exact h
  | cons op rest ih =>
    have hb := applySchedOp_bound s op h
    have hm := applySchedOp_max s op
    have := ih (applySchedOp s op) (by rw [hm]; exact hb)
    rw [hm] at this
    simpa [runSched, List.foldl_cons] using this

/-- C5: the scheduler never has more than maxConcurrentJobs jobs in flight:
one poll claims at most the remaining capacity, any interleaving of polls
and job completions starting from an idle runner keeps the in-flight count
at or below the bound, and with maxConcurrentJobs = 1 and two queued jobs
the second stays queued until the first finishes. -/
theorem c5_concurrency_bound :
    (∀ s : SchedState,
      (pollAndProcessJobs s).activeJobs.length ≤
        s.activeJobs.length + (s.maxConcurrentJobs - s.activeJobs.length))
    ∧ (∀ (maxC : Nat) (queued : List String) (ops : List SchedOp),
        (runSched ⟨maxC, queued, []⟩ ops).activeJobs.length ≤ maxC)
    ∧ runSched ⟨1, ["jobA", "jobB"], []⟩ [.pollOp] = ⟨1, ["jobB"], ["jobA"]⟩
    ∧ runSched ⟨1, ["jobA", "jobB"], []⟩ [.pollOp, .pollOp] = ⟨1, ["jobB"], ["jobA"]⟩
    ∧ runSched ⟨1, ["jobA", "jobB"], []⟩
        [.pollOp, .pollOp, .finishOp "jobA", .pollOp] = ⟨1, [], ["jobB"]⟩ := by
  refine ⟨?_, ?_, by decide, by decide, by decide⟩
  · intro s
    unfold pollAndProcessJobs
    dsimp only
    split
    · omega
    · simp only [List.length_append, List.length_take]
      omega
  · intro maxC queued ops
    exact runSched_bound ops ⟨maxC, queued, []⟩ (by simp)

/-- C7: when no consecutive block fits, the allocator throws a
PortAllocationError and server creation produces a PendingPorts server with
no allocation rows and no auto-queued provision job; when allocation
succeeds the server is created Pending and a provision job is enqueued.
Scenario B: a pool whose single remaining free port cannot hold a
two-port game yields the failure outcome. -/
theorem c7_server_creation_admission :
    (∀ allocated lo hi gamePorts e,
      findAvailableGamePorts allocated lo hi gamePorts = .error e →
      createServerAdmission allocated lo hi gamePorts = ⟨.pendingPorts, [], false⟩)
    ∧ (∀ allocated lo hi gamePorts ports,
      findAvailableGamePorts allocated lo hi gamePorts = .ok ports →
      (createServerAdmission allocated lo hi gamePorts).serverStatus = .pending ∧
      (createServerAdmission allocated lo hi gamePorts).provisionJobQueued = true)
    ∧ createServerAdmission [27000] 27000 27001 [("game", 27015), ("query", 27016)]
        = ⟨.pendingPorts, [], false⟩ := by
  refine ⟨?_, ?_, by decide⟩
  · intro allocated lo hi gamePorts e h
    unfold createServerAdmission
    rw [h]
  · intro allocated lo hi gamePorts ports h
    unfold createServerAdmission
    rw [h]
    exact ⟨rfl, rfl⟩

/-- Witness for C7: Scenario B, a one-free-port pool against a two-port
game, through the failure branch of the admission. -/
theorem c7_server_creation_admission_witness :
    createServerAdmission [27000] 27000 27001 [("game", 27015), ("query", 27016)]
      = ⟨.pendingPorts, [], false⟩ :=
  c7_server_creation_admission.1 [27000] 27000 27001
    [("game", 27015), ("query", 27016)]
    "No consecutive block of ports available in game pool" rfl

/-- C9: when VM provisioning throws during a provision job (for example when
the guest-IP discovery bound expires), the handler returns a failed result
whose error names the provisioning failure, its only external call is the
provision attempt itself, no destroy call is ever issued by the handler on
any path, and the scheduler's post-job policy then sets the server to
Error. -/
theorem c9_provision_failure_no_destroy :
    (∀ (uc : Bool) fwd pb e,
      (handleProvision none true uc (.error e) fwd pb).1 =
          ⟨false, some ("VM provisioning failed: " ++ e), []⟩ ∧
      (handleProvision none true uc (.error e) fwd pb).2 = [.callProvisionVm])
    ∧ (∀ (addr : Option String) (pc uc : Bool) po fwd pb v,
      ProvisionEffect.callDestroyVm v ∉ (handleProvision addr pc uc po fwd pb).2)
    ∧ updateServerStatusAfterJob "provision" false = some .error := by
  refine ⟨?_, ?_, by decide⟩
  · intro uc fwd pb e
    exact ⟨rfl, rfl⟩
  · intro addr pc uc po fwd pb v
    unfold handleProvision provisionTail
    split
    · cases po with
      | error e => simp
      | ok p => cases uc <;> simp
    · split
      · simp
      · cases uc <;> simp

/-- C1 counterexample: the allocator preserves the offsets of the game's
declared base ports, so a game whose two base ports are five apart receives
ports 27000 and 27005 from an empty pool, which are not two consecutive
integers. -/
theorem c1_ports_not_consecutive :
    findAvailableGamePorts [] 27000 27499 [("a", 100), ("b", 105)]
      = .ok [("a", 27000), ("b", 27005)]
    ∧ ¬ ∃ start, (([("a", 27000), ("b", 27005)] : List (String × Nat)).map
        Prod.snd).Perm (List.range' start 2) := by
  constructor
  · rfl
  · rintro ⟨start, hp⟩
    have h1 : (27000 : Nat) ∈ List.range' start 2 := hp.mem_iff.mp (by simp)
    have h2 : (27005 : Nat) ∈ List.range' start 2 := hp.mem_iff.mp (by simp)
    rw [List.mem_range'_1] at h1 h2
    omega

theorem scenarioA_general (lo hi q : Nat)
    (hfb : findConsecutiveBlock [] lo hi 2 = some lo) :
    findAvailableGamePorts [] lo hi [("query", q), ("rcon", q + 1)]
      = .ok [("query", lo), ("rcon", lo + 1)] := by
  have hmin : (q :: List.map (fun d => d.2) [(("rcon" : String), q + 1)]).foldl
      Nat.min q = q := by
    simp [List.foldl, Nat.min_self]
  simp only [findAvailableGamePorts]
  rw [hmin]
  have hoffs : (q :: List.map (fun d => d.2) [(("rcon" : String), q + 1)]).map
      (fun p => p - q) = [0, 1] := by
    simp
  rw [hoffs]
  rw [show ([0, 1].foldl Nat.max 0 + 1) = 2 from rfl]
  rw [hfb]
  simp

/-- C1 (amended): every successful allocation returns one port per named
slot, all within the pool bounds and disjoint from pre-existing allocations
in the pool; the returned ports preserve the offsets of the game's declared
base ports from their minimum (so they are pairwise distinct whenever the
declared base ports are, and consecutive only when the declared base ports
are); in particular on the empty pool 27000 to 27499 a game declaring
consecutive base ports query = q, rcon = q + 1 receives query 27000 and
rcon 27001. -/
theorem c1_allocation_properties :
    (∀ allocated lo hi gamePorts result,
      findAvailableGamePorts allocated lo hi gamePorts = .ok result →
        result.map Prod.fst = gamePorts.map Prod.fst
      ∧ (∀ r ∈ result, lo ≤ r.2 ∧ r.2 ≤ hi ∧ r.2 ∉ allocated)
      ∧ ((gamePorts.map Prod.snd).Nodup → (result.map Prod.snd).Nodup)
      ∧ ∃ s m, lo ≤ s ∧ (∀ g ∈ gamePorts, m ≤ g.2) ∧
          result = gamePorts.map (fun g => (g.1, s + (g.2 - m))))
    ∧ (∀ q : Nat,
        findAvailableGamePorts [] 27000 27499 [("query", q), ("rcon", q + 1)]
          = .ok [("query", 27000), ("rcon", 27001)]) := by
  constructor
  · intro allocated lo hi gamePorts result h
    cases gamePorts with
    | nil =>
      simp only [findAvailableGamePorts] at h
      obtain rfl : result = ([] : List (String × Nat)) := by
        simpa using h.symm
      exact ⟨rfl, by simp, by simp, ⟨lo, 0, Nat.le_refl lo, by simp, by simp⟩⟩
    | cons hd rest =>
      obtain ⟨n0, p0⟩ := hd
      simp only [findAvailableGamePorts] at h
      set basePorts := p0 :: rest.map (fun d => d.2) with hbp
      set m := basePorts.foldl Nat.min p0 with hm
      set bs := (basePorts.map (fun p => p - m)).foldl Nat.max 0 + 1 with hbs
      cases hfb : findConsecutiveBlock allocated lo hi bs with
      | none =>
        rw [hfb] at h
        simp at h
      | some s =>
        rw [hfb] at h
        replace h : result = ((n0, p0) :: rest).map
            (fun d => (d.1, s + (d.2 - m))) := by
          simpa using h.symm
        subst h
        obtain ⟨hlo, hhi, hfree⟩ := findConsecutiveBlock_sound allocated lo hi bs s hfb
        have hbase : ∀ g ∈ (n0, p0) :: rest, g.2 ∈ basePorts := by
          intro g hg
          rcases List.mem_cons.mp hg with rfl | hg'
          · exact List.mem_cons_self _ _
          · exact List.mem_cons.mpr (Or.inr (List.mem_map_of_mem _ hg'))
        have hmle : ∀ g ∈ (n0, p0) :: rest, m ≤ g.2 := by
          intro g hg
          exact foldl_min_le_mem basePorts p0 g.2 (hbase g hg)
        have hoff : ∀ g ∈ (n0, p0) :: rest, g.2 - m < bs := by
          intro g hg
          have hmem : g.2 - m ∈ basePorts.map (fun p => p - m) :=
            List.mem_map_of_mem _ (hbase g hg)
          have hle := foldl_max_ge_mem _ 0 _ hmem
          omega
        refine ⟨?_, ?_, ?_, ?_⟩
        · simp [List.map_map, Function.comp_def]
        · intro r hr
          rw [List.mem_map] at hr
          obtain ⟨g, hg, rfl⟩ := hr
          have h1 := hmle g hg
          have h2 := hoff g hg
          refine ⟨by omega, by omega, ?_⟩
          exact hfree (g.2 - m) h2
        · intro hnd
          have hmap : (((n0, p0) :: rest).map
                (fun d => (d.1, s + (d.2 - m)))).map Prod.snd
              = (((n0, p0) :: rest).map Prod.snd).map (fun b => s + (b - m)) := by
            simp [List.map_map, Function.comp_def]
          rw [hmap]
          apply List.Nodup.map_on ?_ hnd
          intro b1 hb1 b2 hb2 heq
          rw [List.mem_map] at hb1 hb2
          obtain ⟨g1, hg1, rfl⟩ := hb1
          obtain ⟨g2, hg2, rfl⟩ := hb2
          have := hmle g1 hg1
          have := hmle g2 hg2
          omega
        · exact ⟨s, m, hlo, hmle, rfl⟩
  · intro q
    exact scenarioA_general 27000 27499 q rfl

/-- Witness for C1 at a concrete input: with port 27001 already allocated in
pool 27000 to 27004, a two-port game is shifted to the 27002/27003 block,
keeping the declared slot names. -/
theorem c1_allocation_properties_witness :
    ([(("query" : String), 27002), ("rcon", 27003)] : List (String × Nat)).map
        Prod.fst
      = ([("query", 27015), ("rcon", 27016)] : List (String × Nat)).map Prod.fst :=
  (c1_allocation_properties.1 [27001] 27000 27004 [("query", 27015), ("rcon", 27016)]
    [("query", 27002), ("rcon", 27003)] rfl).1
